import Mathlib

/-
Verification of client-side algorithms and protocol-layer behavior of the
arkouda Python client, shallowly embedded in Lean.

Sources embedded:
  - src/arkouda/numpy/util.py        (broadcast_dims, invert_permutation, attach)
  - src/arkouda/pdarraycreation.py   (array, arange, randint, uniform)

Python integers are modelled as Int (they are unbounded), shape extents and
byte counts as Nat, Python lists as List, and fallible code as Except.
Server round trips are modelled as a trace of request messages: each
creation function returns the list of messages it sent together with its
result, so that a statement of the form "fails before any message is sent"
is the equation trace = [].
-/

namespace Arkouda

/-! ### broadcast_dims (src/arkouda/numpy/util.py lines 531-592)

The source right-aligns the two shapes: for result position i in [0, N)
with N = max(len(sa), len(sb)) it computes n1 = len(sa) - N + i and
n2 = len(sb) - N + i (Python ints, possibly negative), reads d1 = sa[n1]
when n1 >= 0 else 1 (and likewise d2), and fills the entry by the
broadcasting rule, raising ValueError on an incompatible pair.  The source
loop fills `shapeOut` from i = N-1 down to 0; since the only possible
failure is the single constant ValueError, computing the entries in
increasing i order yields the same Except value. -/

/-- One entry of the broadcast shape, exactly as the source computes it:
index arithmetic over Python ints, with out-of-range (negative) indices
standing for a missing leading dimension of extent 1. -/
def bcastEntry (sa sb : List Nat) (N i : Nat) : Except String Nat :=
  let n1 : Int := (sa.length : Int) - (N : Int) + (i : Int)
  let n2 : Int := (sb.length : Int) - (N : Int) + (i : Int)
  let d1 : Nat := if 0 ≤ n1 then sa.getD n1.toNat 1 else 1
  let d2 : Nat := if 0 ≤ n2 then sb.getD n2.toNat 1 else 1
  if d1 = 1 then Except.ok d2
  else if d2 = 1 then Except.ok d1
  else if d1 = d2 then Except.ok d1
  else Except.error "Incompatible dimensions for broadcasting"

/-- Embedding of `broadcast_dims` from src/arkouda/numpy/util.py. -/
def broadcast_dims (sa sb : List Nat) : Except String (List Nat) :=
  (List.range (max sa.length sb.length)).mapM
    (bcastEntry sa sb (max sa.length sb.length))

/-- The per-pair broadcasting rule as the spec words it: result dimension is
d2 if d1 == 1, else d1 if d2 == 1, else d1 if d1 == d2, else an
incompatible-shape error. -/
def bcastPairSpec (d : Nat × Nat) : Except String Nat :=
  if d.1 = 1 then Except.ok d.2
  else if d.2 = 1 then Except.ok d.1
  else if d.1 = d.2 then Except.ok d.1
  else Except.error "Incompatible dimensions for broadcasting"

/-- Right-alignment as the spec words it: missing leading dimensions are
treated as size 1. -/
def padShape (N : Nat) (s : List Nat) : List Nat :=
  List.replicate (N - s.length) 1 ++ s

/-- The broadcasting algorithm stated the way the claim states it:
right-align the two shapes by padding the shorter with leading 1s, then
apply the per-pair rule position by position. -/
def broadcastDimsSpec (sa sb : List Nat) : Except String (List Nat) :=
  let N := max sa.length sb.length
  ((padShape N sa).zip (padShape N sb)).mapM bcastPairSpec

lemma mapM_map_except {α β γ : Type} (g : α → β) (f : β → Except String γ) :
    ∀ l : List α, (l.map g).mapM f = l.mapM (fun x => f (g x)) := by
  intro l
  induction l with
  | nil => rfl
  | cons a l ih => rw [List.map_cons, List.mapM_cons, List.mapM_cons, ih]

lemma mapM_congr_except {α β : Type} {f g : α → Except String β} :
    ∀ {l : List α}, (∀ a ∈ l, f a = g a) → l.mapM f = l.mapM g := by
  intro l
  induction l with
  | nil => intro _; rfl
  | cons a l ih =>
      intro h
      simp only [List.mapM_cons]
      rw [h a (List.mem_cons_self a l), ih (fun x hx => h x (List.mem_cons_of_mem a hx))]

lemma mapM_range_zip {β : Type} (g : Nat × Nat → Except String β) :
    ∀ (pa pb : List Nat), pa.length = pb.length →
      (List.range pa.length).mapM (fun i => g (pa.getD i 1, pb.getD i 1)) =
        (pa.zip pb).mapM g := by
  intro pa
  induction pa with
  | nil =>
      intro pb h
      have : pb = [] := (List.length_eq_zero.mp h.symm)
      subst this
      rfl
  | cons a pa ih =>
      intro pb h
      cases pb with
      | nil => simp at h
      | cons b pb =>
          have hlen : pa.length = pb.length := by
            simpa using h
          rw [List.length_cons, List.range_succ_eq_map, List.mapM_cons,
            mapM_map_except, List.zip_cons_cons, List.mapM_cons]
          simp only [List.getD_cons_zero, List.getD_cons_succ, Nat.succ_eq_add_one]
          rw [ih pb hlen]

lemma padShape_length (N : Nat) (s : List Nat) (h : s.length ≤ N) :
    (padShape N s).length = N := by
  simp only [padShape, List.length_append, List.length_replicate]
  omega

lemma getD_replicate_one (k i : Nat) : (List.replicate k 1).getD i 1 = 1 := by
  by_cases h : i < k
  · rw [List.getD_eq_getElem _ _ (by simpa using h), List.getElem_replicate]
  · rw [List.getD_eq_default _ _ (by simpa using h)]

lemma padShape_getD (s : List Nat) (N i : Nat) (h : s.length ≤ N) :
    (padShape N s).getD i 1 =
      if 0 ≤ (s.length : Int) - (N : Int) + (i : Int) then
        s.getD ((s.length : Int) - (N : Int) + (i : Int)).toNat 1
      else 1 := by
  by_cases hc : 0 ≤ (s.length : Int) - (N : Int) + (i : Int)
  · rw [if_pos hc]
    have hge : N - s.length ≤ i := by omega
    have htn : ((s.length : Int) - (N : Int) + (i : Int)).toNat = i - (N - s.length) := by
      omega
    rw [padShape, List.getD_append_right _ _ _ _ (by simpa using hge), htn,
      List.length_replicate]
  · rw [if_neg hc]
    have hlt : i < N - s.length := by omega
    rw [padShape, List.getD_append _ _ _ _ (by simpa using hlt), getD_replicate_one]

lemma bcastEntry_eq_pad (sa sb : List Nat) (N i : Nat)
    (ha : sa.length ≤ N) (hb : sb.length ≤ N) :
    bcastEntry sa sb N i =
      bcastPairSpec ((padShape N sa).getD i 1, (padShape N sb).getD i 1) := by
  rw [padShape_getD sa N i ha, padShape_getD sb N i hb]
  rfl

lemma broadcast_dims_eq_spec (sa sb : List Nat) :
    broadcast_dims sa sb = broadcastDimsSpec sa sb := by
  unfold broadcast_dims broadcastDimsSpec
  have ha : sa.length ≤ max sa.length sb.length := Nat.le_max_left _ _
  have hb : sb.length ≤ max sa.length sb.length := Nat.le_max_right _ _
  have hcongr := mapM_congr_except
    (f := bcastEntry sa sb (max sa.length sb.length))
    (g := fun i => bcastPairSpec ((padShape (max sa.length sb.length) sa).getD i 1,
      (padShape (max sa.length sb.length) sb).getD i 1))
    (l := List.range (max sa.length sb.length))
    (fun i _ => bcastEntry_eq_pad sa sb (max sa.length sb.length) i ha hb)
  rw [hcongr]
  have hzip := mapM_range_zip bcastPairSpec
    (padShape (max sa.length sb.length) sa)
    (padShape (max sa.length sb.length) sb)
    (by rw [padShape_length _ _ ha, padShape_length _ _ hb])
  rw [padShape_length _ _ ha] at hzip
  exact hzip

lemma bcastPairSpec_swap (d1 d2 : Nat) :
    bcastPairSpec (d1, d2) = bcastPairSpec (d2, d1) := by
  rcases eq_or_ne d1 1 with h1 | h1 <;> rcases eq_or_ne d2 1 with h2 | h2
  · subst h1; subst h2; rfl
  · subst h1; simp [bcastPairSpec, h2]
  · subst h2; simp [bcastPairSpec, h1]
  · rcases eq_or_ne d1 d2 with h3 | h3
    · subst h3; simp [bcastPairSpec, h1]
    · simp [bcastPairSpec, h1, h2, h3, h3.symm]

lemma zip_mapM_swap :
    ∀ (pa pb : List Nat), pa.length = pb.length →
      (pa.zip pb).mapM bcastPairSpec = (pb.zip pa).mapM bcastPairSpec := by
  intro pa
  induction pa with
  | nil =>
      intro pb h
      have : pb = [] := (List.length_eq_zero.mp h.symm)
      subst this
      rfl
  | cons a pa ih =>
      intro pb h
      cases pb with
      | nil => simp at h
      | cons b pb =>
          have hlen : pa.length = pb.length := by simpa using h
          rw [List.zip_cons_cons, List.zip_cons_cons, List.mapM_cons, List.mapM_cons,
            bcastPairSpec_swap, ih pb hlen]

lemma broadcastDimsSpec_comm (sa sb : List Nat) :
    broadcastDimsSpec sa sb = broadcastDimsSpec sb sa := by
  unfold broadcastDimsSpec
  rw [Nat.max_comm sb.length sa.length]
  exact zip_mapM_swap _ _
    (by rw [padShape_length _ _ (Nat.le_max_left _ _),
      padShape_length _ _ (Nat.le_max_right _ _)])

/-- C1: broadcast_dims right-aligns the two shape sequences, treats missing
leading dimensions as 1, resolves each aligned pair (d1, d2) to d2 if
d1 == 1, else d1 if d2 == 1, else d1 if d1 == d2, and fails with the
incompatible-dimensions ValueError otherwise; in particular
broadcast_dims((5,1),(1,3)) = (5,3), broadcast_dims((4,),(3,1)) = (3,4),
and broadcast_dims((2,3),(2,4)) raises. -/
theorem broadcast_dims_matches_array_api :
    (∀ sa sb : List Nat, broadcast_dims sa sb = broadcastDimsSpec sa sb) ∧
    broadcast_dims [5, 1] [1, 3] = Except.ok [5, 3] ∧
    broadcast_dims [4] [3, 1] = Except.ok [3, 4] ∧
    broadcast_dims [2, 3] [2, 4] =
      Except.error "Incompatible dimensions for broadcasting" :=
  ⟨broadcast_dims_eq_spec, rfl, rfl, rfl⟩

/-- C10: broadcast_dims is commutative — swapping the two shape arguments
yields the same result, including the same ValueError in the incompatible
case. -/
theorem broadcast_dims_comm (sa sb : List Nat) :
    broadcast_dims sa sb = broadcast_dims sb sa := by
  rw [broadcast_dims_eq_spec, broadcast_dims_eq_spec, broadcastDimsSpec_comm]

/-! ### invert_permutation (src/arkouda/numpy/util.py lines 79-117)

The source checks that `unique(perm)` has as many elements as `perm` and
raises ValueError otherwise, then returns
`coargsort([perm, arange(0, perm.size)])`.  Both `unique` and `coargsort`
are server-backed primitives imported from modules that are not part of the
visible source, so they are modelled from the spec below. -/

/-- Composite-key order used by the joint sort: index i precedes index j
when the first key is smaller, with the second key breaking ties. -/
def lexLe (a b : List Nat) (i j : Nat) : Prop :=
  a.getD i 0 < a.getD j 0 ∨ (a.getD i 0 = a.getD j 0 ∧ b.getD i 0 ≤ b.getD j 0)

instance (a b : List Nat) : DecidableRel (lexLe a b) := fun _ _ => by
  unfold lexLe
  infer_instance

/-- Modelled from the spec: `coargsort` on a pair of equal-length arrays is
the stable composite-key argsort — the permutation of [0, size) that orders
indices by the lexicographic pair of keys (a[i], b[i]).  The actual sort
runs on the server and is not part of the visible source; a stable
insertion sort over the index range realizes the same ordering contract. -/
def coargsort2 (a b : List Nat) : List Nat :=
  List.insertionSort (lexLe a b) (List.range a.length)

/-- Modelled from the spec: `unique` returns the distinct values of the
array (the server additionally sorts them, which the size check never
observes); only the count of distinct values is used here. -/
def unique (a : List Nat) : List Nat :=
  a.dedup

/-- Embedding of `invert_permutation` from src/arkouda/numpy/util.py: raise
ValueError when the distinct-value count differs from the size, else
return the joint stable argsort of (perm, arange(0, perm.size)). -/
def invert_permutation (perm : List Nat) : Except String (List Nat) :=
  if (unique perm).length ≠ perm.length then
    Except.error "The array is not a permutation."
  else
    Except.ok (coargsort2 perm (List.range perm.length))

lemma lexLe_trans (a b : List Nat) (i j k : Nat) :
    lexLe a b i j → lexLe a b j k → lexLe a b i k := by
  intro h1 h2
  unfold lexLe at *
  omega

lemma lexLe_total (a b : List Nat) (i j : Nat) : lexLe a b i j ∨ lexLe a b j i := by
  unfold lexLe
  omega

lemma map_getD_range (p : List Nat) :
    (List.range p.length).map (fun i => p.getD i 0) = p := by
  apply List.ext_getElem
  · simp
  · intro n h1 h2
    rw [List.getElem_map, List.getElem_range]
    exact List.getD_eq_getElem p 0 h2

lemma dedup_length_eq_iff (l : List Nat) : l.dedup.length = l.length ↔ l.Nodup := by
  constructor
  · intro h
    have he := (List.dedup_sublist l).eq_of_length h
    rw [← he]
    exact l.nodup_dedup
  · intro h
    rw [List.dedup_eq_self.mpr h]

lemma coargsort_inverts (p : List Nat) (n : Nat) (hp : p.Perm (List.range n)) :
    ∀ i < n, (coargsort2 p (List.range p.length)).getD (p.getD i 0) 0 = i := by
  have hlen : p.length = n := by simpa using hp.length_eq
  have hnodup : p.Nodup := hp.nodup_iff.mpr (List.nodup_range n)
  set r := coargsort2 p (List.range p.length) with hr
  have hperm : r.Perm (List.range n) := by
    rw [hr]
    unfold coargsort2
    rw [hlen]
    exact List.perm_insertionSort _ _
  have hrlen : r.length = n := by simpa using hperm.length_eq
  have hsorted : List.Sorted (lexLe p (List.range p.length)) r := by
    rw [hr]
    unfold coargsort2
    letI : IsTotal Nat (lexLe p (List.range p.length)) := ⟨lexLe_total p _⟩
    letI : IsTrans Nat (lexLe p (List.range p.length)) := ⟨lexLe_trans p _⟩
    exact List.sorted_insertionSort _ _
  have hmap : r.map (fun x => p.getD x 0) = List.range n := by
    apply List.eq_of_perm_of_sorted (r := fun x y => x ≤ y)
    · have h1 : (r.map fun x => p.getD x 0).Perm
          ((List.range n).map fun x => p.getD x 0) := hperm.map _
      have h2 : (List.range n).map (fun x => p.getD x 0) = p := by
        rw [← hlen]
        exact map_getD_range p
      rw [h2] at h1
      exact h1.trans hp
    · exact List.pairwise_map.mpr (hsorted.imp (fun h => by unfold lexLe at h; omega))
    · exact (List.pairwise_lt_range n).imp (fun h => Nat.le_of_lt h)
  intro i hi
  have hip : i < p.length := by omega
  have hmem : p.getD i 0 ∈ p := by
    rw [List.getD_eq_getElem p 0 hip]
    exact List.getElem_mem hip
  have hjn : p.getD i 0 < n := List.mem_range.mp (hp.mem_iff.mp hmem)
  have hjr : p.getD i 0 < r.length := by omega
  have hkey : p.getD (r.getD (p.getD i 0) 0) 0 = p.getD i 0 := by
    have hmaplen : p.getD i 0 < (r.map fun x => p.getD x 0).length := by
      rw [List.length_map]
      exact hjr
    have hrangelen : p.getD i 0 < (List.range n).length := by
      simpa using hjn
    have h1 : (r.map fun x => p.getD x 0)[p.getD i 0] =
        (List.range n)[p.getD i 0] := by
      simp only [hmap]
    rw [List.getElem_map, List.getElem_range] at h1
    rw [List.getD_eq_getElem r 0 hjr]
    exact h1
  have hmem2 : r.getD (p.getD i 0) 0 ∈ r := by
    rw [List.getD_eq_getElem r 0 hjr]
    exact List.getElem_mem hjr
  have hrj : r.getD (p.getD i 0) 0 < n := List.mem_range.mp (hperm.mem_iff.mp hmem2)
  have hrjp : r.getD (p.getD i 0) 0 < p.length := by omega
  have hgetEq : p[r.getD (p.getD i 0) 0] = p[i] := by
    rw [← List.getD_eq_getElem p 0 hrjp, ← List.getD_eq_getElem p 0 hip]
    exact hkey
  exact (List.Nodup.getElem_inj_iff hnodup).mp hgetEq

/-- C2: for every permutation p of [0, n), invert_permutation succeeds and
returns the array inv — the joint stable composite-key argsort of
(p, arange(0, n)), with no local elementwise loop — with inv[p[i]] = i for
every index i. -/
theorem invert_permutation_inverts (p : List Nat) (n : Nat)
    (hp : p.Perm (List.range n)) :
    ∃ inv, invert_permutation p = Except.ok inv ∧ inv.length = n ∧
      ∀ i < n, inv.getD (p.getD i 0) 0 = i := by
  have hnodup : p.Nodup := hp.nodup_iff.mpr (List.nodup_range n)
  have hcheck : (unique p).length = p.length := (dedup_length_eq_iff p).mpr hnodup
  refine ⟨coargsort2 p (List.range p.length), ?_, ?_, coargsort_inverts p n hp⟩
  · unfold invert_permutation
    rw [if_neg (not_ne_iff.mpr hcheck)]
  · have : (coargsort2 p (List.range p.length)).Perm (List.range p.length) :=
      List.perm_insertionSort _ _
    rw [this.length_eq, List.length_range]
    simpa using hp.length_eq

/-- Witness for C2 at the docstring example: perm = [2, 0, 3, 1]. -/
theorem invert_permutation_inverts_witness :
    ∃ inv, invert_permutation [2, 0, 3, 1] = Except.ok inv ∧ inv.length = 4 ∧
      ∀ i < 4, inv.getD (([2, 0, 3, 1] : List Nat).getD i 0) 0 = i :=
  invert_permutation_inverts [2, 0, 3, 1] 4 (by decide)

/-- C3 counterexample: [0, 5] is not a permutation of [0, 2) — the value 1
is missing and 5 is out of range — yet its values are distinct, so the
distinct-count check passes and invert_permutation returns Ok instead of
raising the ValueError the claim requires. -/
theorem invert_permutation_misses_distinct_nonperm :
    invert_permutation [0, 5] = Except.ok [0, 1] ∧
    ¬ ([0, 5] : List Nat).Perm (List.range 2) :=
  ⟨rfl, by decide⟩

/-- C3 amended: invert_permutation raises the not-a-permutation ValueError
exactly when the input contains a duplicate value (distinct-value count
less than the size); an input whose values are all distinct passes the
check — and proceeds to the inversion sort — even when a value of [0, n)
is missing because some element lies outside the range. -/
theorem invert_permutation_error_iff_dup (perm : List Nat) :
    (∃ e, invert_permutation perm = Except.error e) ↔ ¬ perm.Nodup := by
  unfold invert_permutation
  by_cases h : (unique perm).length ≠ perm.length
  · rw [if_pos h]
    constructor
    · intro _ hnd
      exact h ((dedup_length_eq_iff perm).mpr hnd)
    · intro _
      exact ⟨_, rfl⟩
  · rw [if_neg h]
    constructor
    · rintro ⟨e, he⟩
      cases he
    · intro hnd
      exact absurd ((dedup_length_eq_iff perm).mp (not_ne_iff.mp h)) hnd

/-! ### Creation service: messages and traces (src/arkouda/pdarraycreation.py)

Each creation function returns the list of request messages it sent to the
server paired with its outcome; an Ok value is the request message standing
in for the handle decoded from the corresponding reply. -/

/-- Error classes raised by the embedded creation functions. -/
inductive AkError
  | runtimeError (msg : String)
  | typeError (msg : String)
  | valueError (msg : String)
  | zeroDivisionError (msg : String)
  | indexError (msg : String)
deriving DecidableEq

/-- Request messages sent to the server by the embedded functions. -/
inductive Msg
  | arrayMsg (dtypeName : String) (size : Nat) (payload : List Int)
  | arangeMsg (start stop stride : Int)
  | randintMsg (sizestr dtypeName lowstr highstr : String)
deriving DecidableEq

/-! ### arange (src/arkouda/pdarraycreation.py lines 228-305) -/

/-- Embedding of arange(start, stop, stride) for the general
three-integer-argument call (the one- and two-argument forms fix start = 0
and stride = 1 and then follow the same code path): stride == 0 raises
ZeroDivisionError before anything is sent; otherwise the source
compensates for the server going 2 steps too far on negative strides by
sending stop + 2, and issues the single arange request. -/
def arange (start stop stride : Int) : List Msg × Except AkError Msg :=
  if stride = 0 then
    ([], Except.error (AkError.zeroDivisionError "division by zero"))
  else
    let stop2 := if stride < 0 then stop + 2 else stop
    ([Msg.arangeMsg start stop2 stride], Except.ok (Msg.arangeMsg start stop2 stride))

/-- C7: whenever an arange request is sent (stride nonzero), the stop bound
placed in the message is stop + 2 for a negative stride and stop itself
for a positive stride, while start and stride are passed unchanged. -/
theorem arange_negative_stride_compensation (start stop stride : Int)
    (h : stride ≠ 0) :
    (stride < 0 →
      arange start stop stride =
        ([Msg.arangeMsg start (stop + 2) stride],
          Except.ok (Msg.arangeMsg start (stop + 2) stride))) ∧
    (0 < stride →
      arange start stop stride =
        ([Msg.arangeMsg start stop stride],
          Except.ok (Msg.arangeMsg start stop stride))) := by
  refine ⟨fun hneg => ?_, fun hpos => ?_⟩
  · simp [arange, h, hneg]
  · have hnn : ¬ stride < 0 := by omega
    simp [arange, h, hnn]

/-- Witness for C7 at arange(5, 0, -1) — the spec example, whose message
carries stop = 2 — and at arange(0, 5, 1). -/
theorem arange_negative_stride_compensation_witness :
    (((-1 : Int) < 0 ∧
      arange 5 0 (-1) =
        ([Msg.arangeMsg 5 2 (-1)], Except.ok (Msg.arangeMsg 5 2 (-1)))) ∧
     ((0 : Int) < 1 ∧
      arange 0 5 1 =
        ([Msg.arangeMsg 0 5 1], Except.ok (Msg.arangeMsg 0 5 1)))) :=
  ⟨⟨by decide,
    (arange_negative_stride_compensation 5 0 (-1) (by decide)).1 (by decide)⟩,
   ⟨by decide,
    (arange_negative_stride_compensation 0 5 1 (by decide)).2 (by decide)⟩⟩

/-- C8: arange with stride = 0 fails with the division-by-zero domain error
and an empty message trace — no round trip — for all start and stop
values. -/
theorem arange_zero_stride_domain_error (start stop : Int) :
    arange start stop 0 =
      ([], Except.error (AkError.zeroDivisionError "division by zero")) :=
  rfl

/-! ### array (src/arkouda/pdarraycreation.py lines 15-100) -/

/-- Abstraction of the dtype tables (DTypes and per-dtype itemsize) used by
the numeric path; they live in the dtypes module outside the visible
source. -/
structure DtypeEnv where
  DTypes : List String
  itemsize : String → Nat

/-- Embedding of the numeric path of `array` (lines 88-100) on a rank-1
numeric ndarray: unsupported dtypes raise RuntimeError, a payload of
size * itemsize bytes beyond maxTransferBytes raises RuntimeError, and
otherwise the single packed request message is sent. -/
def arrayNumeric (env : DtypeEnv) (maxTransferBytes : Nat)
    (dtypeName : String) (elems : List Int) : List Msg × Except AkError Msg :=
  if dtypeName ∉ env.DTypes then
    ([], Except.error (AkError.runtimeError ("Unhandled dtype " ++ dtypeName)))
  else if elems.length * env.itemsize dtypeName > maxTransferBytes then
    ([], Except.error (AkError.runtimeError
      "Array exceeds allowed transfer size. Increase ak.maxTransferBytes to allow"))
  else
    ([Msg.arrayMsg dtypeName elems.length elems],
      Except.ok (Msg.arrayMsg dtypeName elems.length elems))

/-- UTF-8 encoding of one code point, as Python str.encode produces it. -/
def utf8Bytes (c : Char) : List Nat :=
  let n := c.toNat
  if n < 128 then [n]
  else if n < 2048 then [192 + n / 64, 128 + n % 64]
  else if n < 65536 then [224 + n / 4096, 128 + n / 64 % 64, 128 + n % 64]
  else [240 + n / 262144, 128 + n / 4096 % 64, 128 + n / 64 % 64, 128 + n % 64]

/-- Python s.encode(): the UTF-8 bytes of the whole string. -/
def encodeStr (s : List Char) : List Nat :=
  (s.map utf8Bytes).flatten

/-- lengths = np.array([len(elem) for elem in a]) + 1: the CHARACTER count
of each element plus one terminator byte, exactly as the source computes
it — len of a Python str counts code points, not UTF-8 bytes. -/
def stringLengths (a : List (List Char)) : List Nat :=
  a.map (fun s => s.length + 1)

/-- np.cumsum: inclusive prefix sums. -/
def cumsum : List Nat → List Nat
  | [] => []
  | x :: xs => x :: (cumsum xs).map (fun y => x + y)

/-- offsets = np.cumsum(lengths) - lengths: zero-based segment offsets. -/
def stringOffsets (a : List (List Char)) : List Nat :=
  (cumsum (stringLengths a)).zipWith (fun x y => x - y) (stringLengths a)

/-- nbytes = offsets[-1] + lengths[-1] (0 for the empty input, which the
source never reaches: it raises IndexError first). -/
def stringNbytes (a : List (List Char)) : Nat :=
  (stringOffsets a).getLastD 0 + (stringLengths a).getLastD 0

/-- consecutive byte stores values[o+i] = b, raising IndexError when a
write falls outside the allocated buffer, as numpy assignment does. -/
def writeBytes : List Nat → Nat → List Nat → Except AkError (List Nat)
  | buf, _, [] => Except.ok buf
  | buf, o, b :: rest =>
    if o < buf.length then writeBytes (buf.set o b) (o + 1) rest
    else Except.error (AkError.indexError "index out of bounds")

/-- the fill loop of the string path: for each (s, o) in zip(a, offsets),
store the bytes of s.encode() starting at offset o. -/
def writeAll : List Nat → List (List Char × Nat) → Except AkError (List Nat)
  | buf, [] => Except.ok buf
  | buf, (s, o) :: rest =>
    match writeBytes buf o (encodeStr s) with
    | Except.error e => Except.error e
    | Except.ok buf2 => writeAll buf2 rest

/-- the local buffer construction of the string path: nbytes zero bytes,
then each segment filled at its offset with the UTF-8 encoding of its
string. -/
def stringsBuffer (a : List (List Char)) : Except AkError (List Nat) :=
  writeAll (List.replicate (stringNbytes a) 0) (a.zip (stringOffsets a))

/-- Embedding of the string path of `array` (lines 70-87): compute lengths
and offsets locally, check nbytes against maxTransferBytes before filling
the buffer, then recurse into the numeric path for the offsets (int64) and
the values (uint8), in that order.  The empty string array raises
IndexError at offsets[-1], as the source does. -/
def arrayStrings (env : DtypeEnv) (maxTransferBytes : Nat)
    (a : List (List Char)) : List Msg × Except AkError (Msg × Msg) :=
  if a.isEmpty then
    ([], Except.error (AkError.indexError "index -1 is out of bounds"))
  else if stringNbytes a > maxTransferBytes then
    ([], Except.error (AkError.runtimeError
      ("Creating pdarray would require transferring " ++ toString (stringNbytes a)
        ++ " bytes, which exceeds allowed transfer size. Increase ak.maxTransferBytes to force.")))
  else
    match stringsBuffer a with
    | Except.error e => ([], Except.error e)
    | Except.ok values =>
      match arrayNumeric env maxTransferBytes "int64" ((stringOffsets a).map Int.ofNat) with
      | (t1, Except.error e) => (t1, Except.error e)
      | (t1, Except.ok h1) =>
        match arrayNumeric env maxTransferBytes "uint8" (values.map Int.ofNat) with
        | (t2, Except.error e) => (t1 ++ t2, Except.error e)
        | (t2, Except.ok h2) => (t1 ++ t2, Except.ok (h1, h2))

/-- C6: a payload exceeding maxTransferBytes makes `array` fail with an
error while the trace of sent messages is still empty — no round trip, no
partial transfer — on both the numeric path (payload = size * itemsize
bytes) and the string path (payload = nbytes, the terminated byte-buffer
size the source checks). -/
theorem array_transfer_guard_no_roundtrip (env : DtypeEnv) (maxTransferBytes : Nat) :
    (∀ (dtypeName : String) (elems : List Int),
      elems.length * env.itemsize dtypeName > maxTransferBytes →
      ∃ e, arrayNumeric env maxTransferBytes dtypeName elems = ([], Except.error e)) ∧
    (∀ a : List (List Char),
      stringNbytes a > maxTransferBytes →
      ∃ e, arrayStrings env maxTransferBytes a = ([], Except.error e)) := by
  constructor
  · intro dt elems h
    unfold arrayNumeric
    by_cases hd : dt ∉ env.DTypes
    · rw [if_pos hd]
      exact ⟨_, rfl⟩
    · rw [if_neg hd, if_pos h]
      exact ⟨_, rfl⟩
  · intro a h
    unfold arrayStrings
    by_cases he : a.isEmpty
    · rw [if_pos he]
      exact ⟨_, rfl⟩
    · rw [if_neg he, if_pos h]
      exact ⟨_, rfl⟩

/-- A concrete dtype environment with the arkouda sizes, for witnesses. -/
def envTest : DtypeEnv :=
  ⟨["int64", "float64", "bool", "uint8"],
   fun dt => if dt = "uint8" || dt = "bool" then 1 else 8⟩

/-- Witness for C6: two int64 elements (16 bytes) against a 10-byte limit,
and the strings ["ab", "c"] (nbytes = 5) against a 4-byte limit. -/
theorem array_transfer_guard_no_roundtrip_witness :
    ((([1, 2] : List Int).length * envTest.itemsize "int64" > 10) ∧
      ∃ e, arrayNumeric envTest 10 "int64" [1, 2] = ([], Except.error e)) ∧
    ((stringNbytes [['a', 'b'], ['c']] > 4) ∧
      ∃ e, arrayStrings envTest 4 [['a', 'b'], ['c']] = ([], Except.error e)) :=
  ⟨⟨by decide,
    (array_transfer_guard_no_roundtrip envTest 10).1 "int64" [1, 2] (by decide)⟩,
   ⟨by decide,
    (array_transfer_guard_no_roundtrip envTest 4).2 [['a', 'b'], ['c']] (by decide)⟩⟩

/-- The construction the C5 claim describes for the lengths: per-element
UTF-8 byte length plus one terminator byte. -/
def specLengthsUtf8 (a : List (List Char)) : List Nat :=
  a.map (fun s => (encodeStr s).length + 1)

/-- The buffer the C5 claim describes: all encoded bytes packed
contiguously, each segment followed by its null terminator. -/
def specStringsBuffer (a : List (List Char)) : List Nat :=
  (a.map (fun s => encodeStr s ++ [0])).flatten

/-- C5 fails on the code: for the input ["é"] the source computes the
segment length from the CHARACTER count (len("é") + 1 = 2), not the UTF-8
byte length (2 + 1 = 3), so the two encoded bytes fill the whole segment
and the null terminator is lost — the code produces the buffer [195, 169]
where the construction the claim describes yields [195, 169, 0]. -/
theorem array_strings_char_count_bug :
    stringLengths [['é']] = [2] ∧
    specLengthsUtf8 [['é']] = [3] ∧
    stringsBuffer [['é']] = Except.ok [195, 169] ∧
    specStringsBuffer [['é']] = [195, 169, 0] :=
  ⟨rfl, rfl, rfl, rfl⟩

/-! ### randint and uniform (src/arkouda/pdarraycreation.py lines 348-426)

The body of uniform is the single call
`randint(size, low=low, high=high, dtype="float64")` against the declared
signature `randint(low, high, size, dtype=int64)`.  Python binds the
positional argument `size` to the parameter `low` and then meets the
keyword `low=...` naming the same parameter; the call-binding rules are
embedded below so that the resulting TypeError is derived, not assumed. -/

/-- Python scalar values passed to randint and uniform: ints, floats
(modelled as rationals — they are only ever compared here, and only at
exact values), and strings (the dtype argument). -/
inductive PyVal
  | intV (n : Int)
  | floatV (q : Rat)
  | strV (s : String)
deriving DecidableEq

/-- resolve_scalar_dtype restricted to the scalar kinds that occur here. -/
def resolveScalarDtype : PyVal → String
  | PyVal.intV _ => "int64"
  | PyVal.floatV _ => "float64"
  | PyVal.strV _ => "str"

/-- Python numeric comparison; comparing a string against a number raises
TypeError in Python 3 (string operands never reach these comparisons in
the embedded calls). -/
def pyLt : PyVal → PyVal → Except AkError Bool
  | PyVal.intV a, PyVal.intV b => Except.ok (decide (a < b))
  | PyVal.intV a, PyVal.floatV b => Except.ok (decide ((a : Rat) < b))
  | PyVal.floatV a, PyVal.intV b => Except.ok (decide (a < (b : Rat)))
  | PyVal.floatV a, PyVal.floatV b => Except.ok (decide (a < b))
  | _, _ => Except.error (AkError.typeError "unorderable types")

/-- akdtype normalization restricted to the dtype names used here (the
full dtype table lives in the dtypes module outside the visible source). -/
def normDtype : PyVal → Option String
  | PyVal.strV "int64" => some "int64"
  | PyVal.strV "float64" => some "float64"
  | PyVal.strV "bool" => some "bool"
  | _ => none

/-- NUMBER_FORMAT_STRINGS: modelled from the spec as a fixed deterministic
rendering per value (the exact per-dtype templates live in the dtypes
module outside the visible source; C4 does not depend on them). -/
def fmtVal : PyVal → String
  | PyVal.intV n => toString n
  | PyVal.floatV q => toString q
  | PyVal.strV s => s

/-- Embedding of randint(low, high, size, dtype) from lines 348-399, with
the checks in source order: size must resolve to int64; size < 0 or
high < low is a ValueError; the dtype must normalize to a supported name;
then the single randint request is formed. -/
def randint (low high size dtype : PyVal) : Except AkError Msg := do
  if resolveScalarDtype size ≠ "int64" then
    throw (AkError.typeError "size must be integer")
  let sneg ← pyLt size (PyVal.intV 0)
  let hlow ← pyLt high low
  if sneg || hlow then
    throw (AkError.valueError "Incompatible arguments")
  match normDtype dtype with
  | none => throw (AkError.typeError "unsupported dtype")
  | some dt =>
      pure (Msg.randintMsg (fmtVal size) dt (fmtVal low) (fmtVal high))

/-- Python keyword binding, applied after the positional prefix: a keyword
naming an already-bound parameter raises TypeError "got multiple values";
a keyword naming no parameter raises TypeError "unexpected keyword". -/
def pyBindKw (fname : String) (params : List (String × Option PyVal)) :
    List (String × PyVal) → List (String × PyVal) →
      Except AkError (List (String × PyVal))
  | bound, [] => Except.ok bound
  | bound, (k, v) :: rest =>
    if (bound.map Prod.fst).contains k then
      Except.error (AkError.typeError
        (fname ++ "() got multiple values for argument " ++ k))
    else if (params.map Prod.fst).contains k then
      pyBindKw fname params (bound ++ [(k, v)]) rest
    else
      Except.error (AkError.typeError
        (fname ++ "() got an unexpected keyword argument " ++ k))

/-- Python binding, final step: read each parameter in declaration order,
falling back to its default, raising TypeError for a missing required
parameter. -/
def pyBindFinish (fname : String) (params : List (String × Option PyVal))
    (bound : List (String × PyVal)) : Except AkError (List PyVal) :=
  params.mapM (fun p =>
    match bound.lookup p.1 with
    | some v => Except.ok v
    | none =>
      match p.2 with
      | some d => Except.ok d
      | none => Except.error (AkError.typeError
          (fname ++ "() missing required argument " ++ p.1)))

/-- Python call binding for f(*pos, **kw) against the parameter list
params of (name, optional default) pairs, in Python evaluation order. -/
def pyBind (fname : String) (params : List (String × Option PyVal))
    (pos : List PyVal) (kw : List (String × PyVal)) :
    Except AkError (List PyVal) :=
  if params.length < pos.length then
    Except.error (AkError.typeError
      (fname ++ "() takes too many positional arguments"))
  else do
    let bound ← pyBindKw fname params ((params.map Prod.fst).zip pos) kw
    pyBindFinish fname params bound

/-- The parameter list of randint exactly as the source declares it:
randint(low, high, size, dtype=int64). -/
def randintParams : List (String × Option PyVal) :=
  [("low", none), ("high", none), ("size", none),
   ("dtype", some (PyVal.strV "int64"))]

/-- Embedding of uniform(size, low, high) from lines 402-426: the body is
the single call randint(size, low=low, high=high, dtype="float64"), whose
argument binding against the randint parameter list is evaluated exactly
as Python evaluates it. -/
def uniform (size low high : PyVal) : Except AkError Msg := do
  let args ← pyBind "randint" randintParams [size]
    [("low", low), ("high", high), ("dtype", PyVal.strV "float64")]
  match args with
  | [l, h, s, d] => randint l h s d
  | _ => throw (AkError.typeError "randint() internal arity mismatch")

/-- C4 fails on the code: uniform passes size positionally into the low
slot of randint and then low again by keyword, so every call raises
TypeError "got multiple values for argument low" — it never behaves as
randint(low, high, size, dtype=float64), which succeeds on the same
arguments, as shown at size = 3, low = 0.0, high = 1.0. -/
theorem uniform_binding_bug :
    (∀ size low high : PyVal,
      uniform size low high =
        Except.error (AkError.typeError
          "randint() got multiple values for argument low")) ∧
    randint (PyVal.floatV 0) (PyVal.floatV 1) (PyVal.intV 3)
        (PyVal.strV "float64") =
      Except.ok (Msg.randintMsg "3" "float64" "0" "1") :=
  ⟨fun _ _ _ => rfl, rfl⟩

/-! ### attach (src/arkouda/numpy/util.py lines 204-280) -/

/-- Python str.lower as the source applies it to object-type tags:
per-character ASCII lowering (tags are ASCII identifiers). -/
def pyLower (s : String) : String :=
  ⟨s.data.map Char.toLower⟩

/-- The declared type tags of the known handle kinds, in the order the
attach dispatch chain tests them.  The tag constants (pdarray.objType,
Strings.objType, Datetime.special_objType, ...) are declared in modules
outside the visible source, so they are modelled from the spec: each known
handle kind declares its own type tag. -/
structure AttachTags where
  pdarrayTag : String
  stringsTag : String
  datetimeTag : String
  timedeltaTag : String
  ipv4Tag : String
  segarrayTag : String
  dataframeTag : String
  groupbyTag : String
  categoricalTag : String
  indexTag : String
  multiindexTag : String
  seriesTag : String
  bitvectorTag : String

/-- The dispatched constructions, one variant per known handle kind; Index
and MultiIndex share the Index constructor, as in the source. -/
inductive AttachObj
  | pdarrayObj (create : String)
  | stringsObj (create : String)
  | datetimeObj (create : String)
  | timedeltaObj (create : String)
  | ipv4Obj (create : String)
  | segarrayObj (create : String)
  | dataframeObj (create : String)
  | groupbyObj (create : String)
  | categoricalObj (create : String)
  | indexObj (create : String)
  | seriesObj (create : String)
  | bitvectorObj (create : String)
deriving DecidableEq

/-- Embedding of the dispatch chain of `attach`: the reply objType is
compared, lowercased, against each known kind tag in source order; every
branch only constructs a value, so the function is total and returns an
Option — none for a tag matching no known kind, never an exception. -/
def attach (t : AttachTags) (objType create : String) : Option AttachObj :=
  if pyLower objType = pyLower t.pdarrayTag then some (AttachObj.pdarrayObj create)
  else if pyLower objType = pyLower t.stringsTag then some (AttachObj.stringsObj create)
  else if pyLower objType = pyLower t.datetimeTag then some (AttachObj.datetimeObj create)
  else if pyLower objType = pyLower t.timedeltaTag then some (AttachObj.timedeltaObj create)
  else if pyLower objType = pyLower t.ipv4Tag then some (AttachObj.ipv4Obj create)
  else if pyLower objType = pyLower t.segarrayTag then some (AttachObj.segarrayObj create)
  else if pyLower objType = pyLower t.dataframeTag then some (AttachObj.dataframeObj create)
  else if pyLower objType = pyLower t.groupbyTag then some (AttachObj.groupbyObj create)
  else if pyLower objType = pyLower t.categoricalTag then some (AttachObj.categoricalObj create)
  else if pyLower objType = pyLower t.indexTag ∨ pyLower objType = pyLower t.multiindexTag then
    some (AttachObj.indexObj create)
  else if pyLower objType = pyLower t.seriesTag then some (AttachObj.seriesObj create)
  else if pyLower objType = pyLower t.bitvectorTag then some (AttachObj.bitvectorObj create)
  else none

/-- The declared tags of all known kinds. -/
def AttachTags.all (t : AttachTags) : List String :=
  [t.pdarrayTag, t.stringsTag, t.datetimeTag, t.timedeltaTag, t.ipv4Tag,
   t.segarrayTag, t.dataframeTag, t.groupbyTag, t.categoricalTag,
   t.indexTag, t.multiindexTag, t.seriesTag, t.bitvectorTag]

/-- C9: when the objType of an attach reply matches none of the known
kind tags case-insensitively, attach yields none — and never raises, being
a total Option-valued function. -/
theorem attach_unknown_tag_yields_none (t : AttachTags) (objType create : String)
    (h : ∀ tag ∈ t.all, pyLower objType ≠ pyLower tag) :
    attach t objType create = none := by
  have h1 := h t.pdarrayTag (by simp [AttachTags.all])
  have h2 := h t.stringsTag (by simp [AttachTags.all])
  have h3 := h t.datetimeTag (by simp [AttachTags.all])
  have h4 := h t.timedeltaTag (by simp [AttachTags.all])
  have h5 := h t.ipv4Tag (by simp [AttachTags.all])
  have h6 := h t.segarrayTag (by simp [AttachTags.all])
  have h7 := h t.dataframeTag (by simp [AttachTags.all])
  have h8 := h t.groupbyTag (by simp [AttachTags.all])
  have h9 := h t.categoricalTag (by simp [AttachTags.all])
  have h10 := h t.indexTag (by simp [AttachTags.all])
  have h11 := h t.multiindexTag (by simp [AttachTags.all])
  have h12 := h t.seriesTag (by simp [AttachTags.all])
  have h13 := h t.bitvectorTag (by simp [AttachTags.all])
  simp [attach, h1, h2, h3, h4, h5, h6, h7, h8, h9, h10, h11, h12, h13]

/-- A concrete tag table carrying the arkouda tag strings, for the C9
witness. -/
def arkoudaTags : AttachTags :=
  ⟨"pdarray", "strings", "datetime", "timedelta", "ipv4", "segarray",
   "dataframe", "groupby", "categorical", "index", "multiindex", "series",
   "bitvector"⟩

/-- Witness for C9: the unknown reply tag "BogusType" against the concrete
tag table yields none. -/
theorem attach_unknown_tag_yields_none_witness :
    (∀ tag ∈ arkoudaTags.all, pyLower "BogusType" ≠ pyLower tag) ∧
    attach arkoudaTags "BogusType" "create-payload" = none :=
  ⟨by decide,
   attach_unknown_tag_yields_none arkoudaTags "BogusType" "create-payload" (by decide)⟩

end Arkouda
